import Mathlib

/-!
# Cross-directory rename of go-ds-flatfs (`rename_plan9.go`)

A shallow embedding of `rename`, `MoveFile` and `dirwstat` over an explicit
file-system state.  The standard-library calls the three functions make
(`os.Open`, `os.Create`, `os.OpenFile`, `File.Stat`, `io.Copy`, `File.Close`,
`os.Remove`, `syscall.Wstat`, `filepath.Dir`) are not part of the repository;
they are modelled as state transformers whose failure is decided by the
environment: every call site has its own entry in `Faults`, which, when set,
is the error value that call returns.

Files are objects of their own: a path string denotes a directory entry, an
entry is bound to an inode, and open files refer to inodes.  Two path strings
can therefore reach one file, through one entry (`/a/x` and `/a/./x`) or
through two entries bound to one inode (hard links).
-/

namespace Flatfs

/-! ## Go error values -/

abbrev Path := String

/-- Go error values that occur in the file.  `errorString` is what
`errors.New` and `fmt.Errorf` without `%w` build (text only, nothing wrapped);
`syscallError` is a `syscall.ErrorString`; `errInvalid` is the sentinel
`os.ErrInvalid`; `pathError` and `linkError` are `*os.PathError` and
`*os.LinkError`, both of which carry their cause as a value. -/
inductive GoError where
  | errorString (s : String)
  | syscallError (s : String)
  | errInvalid
  | pathError (op : String) (path : Path) (err : GoError)
  | linkError (op : String) (old new : Path) (err : GoError)
  deriving DecidableEq

/-- The `Error()` method: the message text of an error value. -/
def GoError.Error : GoError → String
  | .errorString s => s
  | .syscallError s => s
  | .errInvalid => "invalid argument"
  | .pathError op path err => op ++ " " ++ path ++ ": " ++ err.Error
  | .linkError op old new err => op ++ " " ++ old ++ " " ++ new ++ ": " ++ err.Error

/-- The value `syscall.ENOENT`. -/
def ENOENT : GoError := .syscallError "file does not exist"

/-- The value `syscall.EISDIR`. -/
def EISDIR : GoError := .syscallError "file is a directory"

/-- The value `syscall.ENOTDIR`. -/
def ENOTDIR : GoError := .syscallError "not a directory"

/-- The call `fmt.Errorf(msg + ": %s", err)`: the verb is `%s`, not `%w`, so the
result is a text-only error holding the formatted message. -/
def fmtErrorf (msg : String) (err : GoError) : GoError :=
  .errorString (msg ++ ": " ++ err.Error)

/-! ## File-system state -/

/-- A file-system object.  `data` is the byte sequence a read of the object
yields, `mode` its permission bits, `mtime` its modification time. -/
structure Node where
  isDir : Bool
  data : List Nat
  mode : Nat
  mtime : Nat
  deriving DecidableEq

/-- The file system: `entry` is the directory entry a path string denotes
(several strings may denote one entry), `names` binds entries to inode
numbers, `inodes` is the table of objects.  An entry bound to a number outside
the table names nothing. -/
structure Store where
  entry : Path → Path
  names : Path → Option Nat
  inodes : List Node

/-- Resolve a path: the inode number it reaches and the object there. -/
def Store.find (s : Store) (p : Path) : Option (Nat × Node) :=
  match s.names (s.entry p) with
  | none => none
  | some i => (s.inodes[i]?).map (fun n => (i, n))

/-- Replace the object at inode `i`. -/
def Store.setNode (s : Store) (i : Nat) (n : Node) : Store :=
  { s with inodes := s.inodes.set i n }

/-- Add the object `n` at a fresh inode and bind the entry of `p` to it. -/
def Store.link (s : Store) (p : Path) (n : Node) : Store :=
  { s with
    names := fun e => if e = s.entry p then some s.inodes.length else s.names e
    inodes := s.inodes ++ [n] }

/-- Unbind the entry of `p`; the object stays for the other entries bound to it. -/
def Store.unlink (s : Store) (p : Path) : Store :=
  { s with names := fun e => if e = s.entry p then none else s.names e }

/-- The name space as seen through paths: which object, if any, each path names. -/
abbrev FS := Path → Option Node

/-- The library and system calls the code makes, as recorded in the log. -/
inductive Call where
  | openRead (p : Path)
  | openFile (p : Path) (perm : Nat)
  | stat (p : Path)
  | copy (dst src : Path)
  | close (p : Path)
  | remove (p : Path)
  | marshal
  | wstat (p : Path)
  deriving DecidableEq

/-- The state the code runs on: the file system and the log of calls made. -/
structure World where
  store : Store
  log : List Call

/-- The object a path names in this state, if any. -/
def World.fs (w : World) : FS :=
  fun p => (w.store.find p).map Prod.snd

/-- Two paths name the same file: the first names something and both reach
the same inode. -/
def sameFile (w : World) (p q : Path) : Prop :=
  (w.store.find p).isSome ∧ (w.store.find p).map Prod.fst = (w.store.find q).map Prod.fst

/-- Append one call to the log. -/
def World.record (w : World) (c : Call) : World :=
  { w with log := w.log ++ [c] }

/-- An open file, `*os.File`: the name it was opened under and the inode it
refers to. -/
structure File where
  name : Path
  ino : Nat

/-- Environment decisions, one per call site (line numbers of
`rename_plan9.go`).  `some e` makes that call return the error `e`; for the
two copies the number is how many bytes reach the destination first. -/
structure Faults where
  mvOpen : Option GoError := none
  mvCreate : Option GoError := none
  mvCopy : Option (Nat × GoError) := none
  mvCloseIn : Option GoError := none
  mvRemove : Option GoError := none
  mvCloseOut : Option GoError := none
  fbOpen : Option GoError := none
  fbStat : Option GoError := none
  fbOpenFile : Option GoError := none
  fbCopy : Option (Nat × GoError) := none
  fbCloseDst : Option GoError := none
  fbRemoveDst : Option GoError := none
  fbMarshal : Option GoError := none
  fbWstat : Option GoError := none
  fbRemove : Option GoError := none
  fbCloseSrc : Option GoError := none

/-- What the code takes from its platform: `filepath.Dir`, the permission bits
a file creation may keep (the complement of a umask, or the parent directory's
permissions on Plan 9), the clock that stamps modification times, and the
fault decisions. -/
structure Env where
  dir : Path → Path
  permMask : Nat
  now : Nat
  faults : Faults

/-! ## The standard-library calls -/

/-- The call `os.Open(name)`: fails when the environment says so or when
`name` names nothing; otherwise the file refers to the inode `name` reaches. -/
def osOpen (fault : Option GoError) (w : World) (name : Path) : Except GoError File × World :=
  let w1 := w.record (.openRead name)
  match fault with
  | some e => (.error e, w1)
  | none =>
    match w.store.find name with
    | none => (.error (.pathError "open" name ENOENT), w1)
    | some (i, _) => (.ok ⟨name, i⟩, w1)

/-- The call `os.OpenFile(name, _|O_CREATE|O_TRUNC, perm)`.  When `name` names
a regular file, that file is emptied (whatever other names it has) and keeps
its mode; a directory is refused.  When `name` names nothing, its parent
directory must exist, and an empty regular file with the permitted part of
`perm` is created at a fresh inode. -/
def osOpenFile (env : Env) (fault : Option GoError) (w : World) (name : Path) (perm : Nat) :
    Except GoError File × World :=
  let w1 := w.record (.openFile name perm)
  match fault with
  | some e => (.error e, w1)
  | none =>
    match w.store.find name with
    | some (i, n) =>
      if n.isDir then (.error (.pathError "open" name EISDIR), w1)
      else
        (.ok ⟨name, i⟩,
          { w1 with store := w.store.setNode i { n with data := [], mtime := env.now } })
    | none =>
      match w.store.find (env.dir name) with
      | none => (.error (.pathError "open" name ENOENT), w1)
      | some (_, d) =>
        if d.isDir then
          (.ok ⟨name, w.store.inodes.length⟩,
            { w1 with store := w.store.link name ⟨false, [], perm &&& env.permMask, env.now⟩ })
        else (.error (.pathError "open" name ENOTDIR), w1)

/-- The call `os.Create(name)`, which is `OpenFile(name, O_RDWR|O_CREATE|O_TRUNC, 0666)`. -/
def osCreate (env : Env) (fault : Option GoError) (w : World) (name : Path) :
    Except GoError File × World :=
  osOpenFile env fault w name 0o666

/-- Bytes of a file after `new` has been written from offset 0 over `old`. -/
def overwrite (old new : List Nat) : List Nat :=
  new ++ old.drop new.length

/-- The call `io.Copy(dst, src)` on two freshly opened files: the bytes of the
object `src` refers to are written to the object `dst` refers to, from offset
0.  A fault `(k, e)` lets the first `k` bytes through and then returns `e`. -/
def ioCopy (env : Env) (fault : Option (Nat × GoError)) (w : World) (dst src : File) :
    Option GoError × World :=
  let w1 := w.record (.copy dst.name src.name)
  match w.store.inodes[src.ino]?, w.store.inodes[dst.ino]? with
  | some s, some d =>
    match fault with
    | some (k, e) =>
      let d1 : Node := { d with data := overwrite d.data (s.data.take k), mtime := env.now }
      (some e, { w1 with store := w.store.setNode dst.ino d1 })
    | none =>
      let d1 : Node := { d with data := overwrite d.data s.data, mtime := env.now }
      (none, { w1 with store := w.store.setNode dst.ino d1 })
  | _, _ => (some (.errorString "file already closed"), w1)

/-- The method `File.Close()`: it only reports; the bytes written are already
in the file, and the file system is not touched. -/
def fileClose (fault : Option GoError) (w : World) (f : File) : Option GoError × World :=
  (fault, w.record (.close f.name))

/-- The call `os.Remove(name)`: unbinds the entry of `name`. -/
def osRemove (fault : Option GoError) (w : World) (name : Path) : Option GoError × World :=
  let w1 := w.record (.remove name)
  match fault with
  | some e => (some e, w1)
  | none =>
    match w.store.find name with
    | none => (some (.pathError "remove" name ENOENT), w1)
    | some _ => (none, { w1 with store := w.store.unlink name })

/-- The method `File.Stat()` on an open file: a snapshot of the object. -/
def fileStat (fault : Option GoError) (w : World) (f : File) : Except GoError Node × World :=
  let w1 := w.record (.stat f.name)
  match fault with
  | some e => (.error e, w1)
  | none =>
    match w.store.inodes[f.ino]? with
    | none => (.error (.pathError "stat" f.name ENOENT), w1)
    | some n => (.ok n, w1)

/-- The call `d.Marshal(buf)`; it does not touch the file system. -/
def dirMarshal (fault : Option GoError) (w : World) : Option GoError × World :=
  (fault, w.record .marshal)

/-- The call `syscall.Wstat(name, buf)` for a `Dir` that is null except for
`Mtime` and `Mode`: sets exactly these two attributes. -/
def syscallWstat (fault : Option GoError) (w : World) (name : Path) (mtime mode : Nat) :
    Option GoError × World :=
  let w1 := w.record (.wstat name)
  match fault with
  | some e => (some e, w1)
  | none =>
    match w.store.find name with
    | none => (some ENOENT, w1)
    | some (i, n) =>
      (none, { w1 with store := w.store.setNode i { n with mode := mode, mtime := mtime } })

/-! ## The functions of `rename_plan9.go` -/

/-- Lines 90-101, `dirwstat(name, d)`, with `d` null except `Mtime` and `Mode`. -/
def dirwstat (env : Env) (w : World) (name : Path) (mtime mode : Nat) : Option GoError × World :=
  match dirMarshal env.faults.fbMarshal w with
  | (some err, w1) => (some (.pathError "dirwstat" name err), w1)
  | (none, w1) =>
    match syscallWstat env.faults.fbWstat w1 name mtime mode with
    | (some err, w2) => (some (.pathError "dirwstat" name err), w2)
    | (none, w2) => (none, w2)

/-- Lines 66-88, `MoveFile(sourcePath, destPath)`.  The deferred
`outputFile.Close()` runs last on every path after line 76 and its result is
dropped, like the results of the two `inputFile.Close()` calls. -/
def MoveFile (env : Env) (w : World) (sourcePath destPath : Path) : Option GoError × World :=
  match osOpen env.faults.mvOpen w sourcePath with
  | (.error err, w1) => (some (fmtErrorf "couldn't open source file" err), w1)
  | (.ok inputFile, w1) =>
    match osCreate env env.faults.mvCreate w1 destPath with
    | (.error err, w2) =>
      let w3 := (fileClose env.faults.mvCloseIn w2 inputFile).2
      (some (fmtErrorf "couldn't open dest file" err), w3)
    | (.ok outputFile, w2) =>
      match ioCopy env env.faults.mvCopy w2 outputFile inputFile with
      | (some err, w3) =>
        let w4 := (fileClose env.faults.mvCloseIn w3 inputFile).2
        (some (fmtErrorf "writing to output file failed" err),
          (fileClose env.faults.mvCloseOut w4 outputFile).2)
      | (none, w3) =>
        let w4 := (fileClose env.faults.mvCloseIn w3 inputFile).2
        match osRemove env.faults.mvRemove w4 sourcePath with
        | (some err, w5) =>
          (some (fmtErrorf "failed removing original file" err),
            (fileClose env.faults.mvCloseOut w5 outputFile).2)
        | (none, w5) => (none, (fileClose env.faults.mvCloseOut w5 outputFile).2)

/-- Lines 28-63 of `rename`: what runs between the `defer src.Close()` of
line 26 and the return, on the opened source `src`. -/
def renameCopy (env : Env) (w : World) (src : File) (oldpath newpath : Path) :
    Option GoError × World :=
  match fileStat env.faults.fbStat w src with
  | (.error err, w1) => (some (.linkError "rename" oldpath newpath err), w1)
  | (.ok fi, w1) =>
    if fi.isDir then (some (.linkError "rename" oldpath newpath EISDIR), w1)
    else
      match osOpenFile env env.faults.fbOpenFile w1 newpath fi.mode with
      | (.error err, w2) => (some (.linkError "rename" oldpath newpath err), w2)
      | (.ok dst, w2) =>
        match ioCopy env env.faults.fbCopy w2 dst src with
        | (some err, w3) =>
          let w4 := (fileClose env.faults.fbCloseDst w3 dst).2
          let w5 := (osRemove env.faults.fbRemoveDst w4 newpath).2
          (some (.linkError "rename" oldpath newpath err), w5)
        | (none, w3) =>
          match fileClose env.faults.fbCloseDst w3 dst with
          | (some err, w4) =>
            let w5 := (osRemove env.faults.fbRemoveDst w4 newpath).2
            (some (.linkError "rename" oldpath newpath err), w5)
          | (none, w4) =>
            let w5 := (dirwstat env w4 newpath fi.mtime fi.mode).2
            match osRemove env.faults.fbRemove w5 oldpath with
            | (some err, w6) => (some (.linkError "rename" oldpath newpath err), w6)
            | (none, w6) => (none, w6)

/-- Lines 22-63 of `rename`, the copy-and-delete fallback; the deferred
`src.Close()` runs last once the source has been opened. -/
def renameFallback (env : Env) (w : World) (oldpath newpath : Path) : Option GoError × World :=
  match osOpen env.faults.fbOpen w oldpath with
  | (.error err, w1) => (some (.linkError "rename" oldpath newpath err), w1)
  | (.ok src, w1) =>
    let r := renameCopy env w1 src oldpath newpath
    (r.1, (fileClose env.faults.fbCloseSrc r.2 src).2)

/-- The test of line 13: `err` is an `*os.LinkError` whose `Err` is `os.ErrInvalid`. -/
def isLinkErrInvalid : Option GoError → Bool
  | some (.linkError _ _ _ .errInvalid) => true
  | _ => false

/-- Lines 11-64, `rename(oldpath, newpath)`: the error returned (`none` is
`nil`) and the state left behind. -/
def rename (env : Env) (w : World) (oldpath newpath : Path) : Option GoError × World :=
  let r := MoveFile env w oldpath newpath
  if !isLinkErrInvalid r.1 then r
  else if env.dir oldpath = env.dir newpath then r
  else renameFallback env r.2 oldpath newpath

/-! ## A concrete file system for evaluating the code -/

/-- Parent directory of a clean absolute path: what precedes its last slash
(`/` for an entry of the root). -/
def exampleDir (p : Path) : Path :=
  let parent := ((p.toList.reverse.dropWhile (fun c => c != '/')).drop 1).reverse
  if parent.isEmpty then "/" else String.mk parent

/-- Directory entries of the example: `/a/./x` is another spelling of `/a/x`,
every other path denotes itself. -/
def exampleEntry (p : Path) : Path :=
  if p = "/a/./x" then "/a/x" else p

/-- Bindings of the example: the directories `/a`, `/b` and `/a/d` and the
file `/a/x`, each at its own inode; nothing else. -/
def exampleNames (e : Path) : Option Nat :=
  if e = "/a" then some 0
  else if e = "/b" then some 1
  else if e = "/a/d" then some 2
  else if e = "/a/x" then some 3
  else none

/-- Objects of the example: three empty directories and a regular file
(bytes 1 2 3, mode 0600). -/
def exampleInodes : List Node :=
  [⟨true, [], 0o755, 5⟩, ⟨true, [], 0o755, 5⟩, ⟨true, [], 0o755, 5⟩,
    ⟨false, [1, 2, 3], 0o600, 5⟩]

/-- The example file system with an empty call log. -/
def exampleWorld : World := ⟨⟨exampleEntry, exampleNames, exampleInodes⟩, []⟩

/-- The example with `/b/x` added as a hard link to the file `/a/x`. -/
def linkedWorld : World :=
  ⟨⟨exampleEntry, fun e => if e = "/b/x" then some 3 else exampleNames e, exampleInodes⟩, []⟩

/-- A platform that clears the group and other write bits on creation, at
time 7, with the given fault decisions. -/
def exampleEnv (faults : Faults) : Env := ⟨exampleDir, 0o755, 7, faults⟩

/-- No call fails. -/
def noFaults : Faults := {}

/-- Every copy to `/b/x` fails with a write error after one byte. -/
def copyFault : Faults :=
  { mvCopy := some (1, .pathError "write" "/b/x" (.syscallError "i/o error")),
    fbCopy := some (1, .pathError "write" "/b/x" (.syscallError "i/o error")) }

/-- Every copy from the directory `/a/d` fails at once: its read is refused. -/
def dirReadFault : Faults :=
  { mvCopy := some (0, .pathError "read" "/a/d" EISDIR),
    fbCopy := some (0, .pathError "read" "/a/d" EISDIR) }

/-- Every close of the destination `/b/x` fails. -/
def closeFault : Faults :=
  { mvCloseOut := some (.pathError "close" "/b/x" (.syscallError "i/o error")),
    fbCloseDst := some (.pathError "close" "/b/x" (.syscallError "i/o error")) }

/-- Every removal of the source `/a/x` fails. -/
def removeFault : Faults :=
  { mvRemove := some (.pathError "remove" "/a/x" (.syscallError "permission denied")),
    fbRemove := some (.pathError "remove" "/a/x" (.syscallError "permission denied")) }

/-! ## Resolution of paths under the three updates of the file system -/

theorem find_inode {s : Store} {q : Path} {j : Nat} {m : Node} (h : s.find q = some (j, m)) :
    s.inodes[j]? = some m := by
  unfold Store.find at h
  cases hn : s.names (s.entry q) with
  | none => simp [hn] at h
  | some i =>
    simp only [hn] at h
    cases hi : s.inodes[i]? with
    | none => simp [hi] at h
    | some n =>
      simp only [hi, Option.map_some', Option.some.injEq, Prod.mk.injEq] at h
      rw [← h.1, ← h.2, hi]

theorem find_of_entry_eq {s : Store} {p q : Path} (h : s.entry q = s.entry p) :
    s.find q = s.find p := by
  unfold Store.find
  rw [h]

theorem find_setNode_self {s : Store} {q : Path} {j : Nat} {m : Node} (n : Node)
    (h : s.find q = some (j, m)) : (s.setNode j n).find q = some (j, n) := by
  have hj := find_inode h
  have hlt : j < s.inodes.length := by
    rcases Nat.lt_or_ge j s.inodes.length with hlt | hge
    · exact hlt
    · rw [List.getElem?_eq_none hge] at hj; cases hj
  unfold Store.find at h ⊢
  cases hn : s.names (s.entry q) with
  | none => simp [hn] at h
  | some i =>
    simp only [hn] at h
    cases hi : s.inodes[i]? with
    | none => simp [hi] at h
    | some n0 =>
      simp only [hi, Option.map_some', Option.some.injEq, Prod.mk.injEq] at h
      obtain ⟨rfl, -⟩ := h
      simp [Store.setNode, hn, List.getElem?_set, hlt]

theorem find_setNode_other {s : Store} {q : Path} {i j : Nat} {m : Node} (n : Node)
    (h : s.find q = some (j, m)) (hne : j ≠ i) : (s.setNode i n).find q = some (j, m) := by
  unfold Store.find at h ⊢
  cases hn : s.names (s.entry q) with
  | none => simp [hn] at h
  | some k =>
    simp only [hn] at h
    cases hk : s.inodes[k]? with
    | none => simp [hk] at h
    | some n0 =>
      simp only [hk, Option.map_some', Option.some.injEq, Prod.mk.injEq] at h
      obtain ⟨rfl, rfl⟩ := h
      have hne2 : i ≠ k := fun h => hne h.symm
      simp [Store.setNode, hn, List.getElem?_set_ne hne2, hk]

theorem find_setNode_isSome {s : Store} {q : Path} (i : Nat) (n : Node)
    (h : (s.find q).isSome) : ((s.setNode i n).find q).isSome := by
  cases hq : s.find q with
  | none => simp [hq] at h
  | some r =>
    obtain ⟨j, m⟩ := r
    by_cases hji : j = i
    · subst hji
      rw [find_setNode_self n hq]; rfl
    · rw [find_setNode_other n hq hji]; rfl

theorem find_link_self (s : Store) (p : Path) (n : Node) :
    (s.link p n).find p = some (s.inodes.length, n) := by
  simp [Store.find, Store.link]

theorem find_link_other {s : Store} {p q : Path} {j : Nat} {m : Node} (n : Node)
    (h : s.find q = some (j, m)) (hp : s.find p = none) :
    (s.link p n).find q = some (j, m) := by
  have hne : s.entry q ≠ s.entry p := by
    intro he
    rw [find_of_entry_eq he, hp] at h
    cases h
  have hj := find_inode h
  have hlt : j < s.inodes.length := by
    rcases Nat.lt_or_ge j s.inodes.length with hlt | hge
    · exact hlt
    · rw [List.getElem?_eq_none hge] at hj; cases hj
  unfold Store.find at h ⊢
  cases hn : s.names (s.entry q) with
  | none => simp [hn] at h
  | some k =>
    simp only [hn] at h
    cases hk : s.inodes[k]? with
    | none => simp [hk] at h
    | some n0 =>
      simp only [hk, Option.map_some', Option.some.injEq, Prod.mk.injEq] at h
      obtain ⟨rfl, rfl⟩ := h
      simp [Store.link, hne, hn, List.getElem?_append_left hlt, hk]

theorem find_unlink_self (s : Store) (p : Path) : (s.unlink p).find p = none := by
  simp [Store.find, Store.unlink]

theorem find_unlink_other {s : Store} {p q : Path} (hne : s.entry q ≠ s.entry p) :
    (s.unlink p).find q = s.find q := by
  simp [Store.find, Store.unlink, hne]

/-! ## What each library call does to the file system -/

theorem record_store (w : World) (c : Call) : (w.record c).store = w.store := rfl

theorem osOpen_store (fault : Option GoError) (w : World) (name : Path) :
    (osOpen fault w name).2.store = w.store := by
  unfold osOpen
  cases fault with
  | some e => rfl
  | none =>
    cases h : w.store.find name with
    | none => simp [h, World.record]
    | some r => simp [h, World.record]

theorem osOpen_ok {fault : Option GoError} {w w1 : World} {name : Path} {f : File}
    (h : osOpen fault w name = (.ok f, w1)) :
    fault = none ∧ (∃ n, w.store.find name = some (f.ino, n)) ∧ w1.store = w.store := by
  have hs := osOpen_store fault w name
  rw [h] at hs
  refine ⟨?_, ?_, hs⟩
  · cases fault with
    | none => rfl
    | some e => simp [osOpen] at h
  · unfold osOpen at h
    cases fault with
    | some e => simp at h
    | none =>
      cases hn : w.store.find name with
      | none => simp [hn] at h
      | some r =>
        obtain ⟨i, n⟩ := r
        simp only [hn, Prod.mk.injEq, Except.ok.injEq] at h
        exact ⟨n, by rw [← h.1]⟩

theorem osOpen_err {fault : Option GoError} {w w1 : World} {name : Path} {e : GoError}
    (h : osOpen fault w name = (.error e, w1)) : w1.store = w.store := by
  have hs := osOpen_store fault w name
  rw [h] at hs
  exact hs

theorem osOpenFile_err {env : Env} {fault : Option GoError} {w w1 : World} {name : Path}
    {perm : Nat} {e : GoError} (h : osOpenFile env fault w name perm = (.error e, w1)) :
    w1.store = w.store := by
  unfold osOpenFile at h
  cases fault with
  | some e0 => simp at h; rw [← h.2]; rfl
  | none =>
    cases hn : w.store.find name with
    | some r =>
      obtain ⟨i, n⟩ := r
      simp only [hn] at h
      split at h
      · simp at h; rw [← h.2]; rfl
      · simp at h
    | none =>
      simp only [hn] at h
      cases hp : w.store.find (env.dir name) with
      | none => simp [hp] at h; rw [← h.2]; rfl
      | some r =>
        obtain ⟨i, d⟩ := r
        simp only [hp] at h
        split at h
        · simp at h
        · simp at h; rw [← h.2]; rfl

/-- A successful `OpenFile` with `O_CREATE|O_TRUNC`: the file returned refers to
an empty regular file that `name` now names; it is the inode `name` named
before, or a new one; every other inode keeps its object and its names. -/
theorem osOpenFile_ok {env : Env} {fault : Option GoError} {w w1 : World} {name : Path}
    {perm : Nat} {f : File} (h : osOpenFile env fault w name perm = (.ok f, w1)) :
    fault = none ∧
    (∃ n1, w1.store.find name = some (f.ino, n1) ∧ n1.isDir = false ∧ n1.data = []) ∧
    ((∃ n, w.store.find name = some (f.ino, n)) ∨
      (w.store.find name = none ∧ f.ino = w.store.inodes.length)) ∧
    (∀ q j m, w.store.find q = some (j, m) → j ≠ f.ino → w1.store.find q = some (j, m)) ∧
    (∀ q, (w.store.find q).isSome → (w1.store.find q).isSome) ∧
    w1.store.entry = w.store.entry := by
  unfold osOpenFile at h
  cases fault with
  | some e0 => simp at h
  | none =>
    refine ⟨rfl, ?_⟩
    cases hn : w.store.find name with
    | some r =>
      obtain ⟨i, n⟩ := r
      simp only [hn] at h
      split at h
      · simp at h
      · rename_i hd
        simp only [Prod.mk.injEq, Except.ok.injEq] at h
        obtain ⟨hf, hw⟩ := h
        subst hf
        subst hw
        refine ⟨⟨_, find_setNode_self _ hn, by simpa using hd, rfl⟩, Or.inl ⟨n, rfl⟩, ?_, ?_, rfl⟩
        · intro q j m hq hne
          exact find_setNode_other _ hq hne
        · intro q hq
          exact find_setNode_isSome _ _ hq
    | none =>
      simp only [hn] at h
      cases hp : w.store.find (env.dir name) with
      | none => simp [hp] at h
      | some r =>
        obtain ⟨i, d⟩ := r
        simp only [hp] at h
        split at h
        · simp only [Prod.mk.injEq, Except.ok.injEq] at h
          obtain ⟨hf, hw⟩ := h
          subst hf
          subst hw
          refine ⟨⟨_, find_link_self _ _ _, rfl, rfl⟩, Or.inr ⟨rfl, rfl⟩, ?_, ?_, rfl⟩
          · intro q j m hq _
            exact find_link_other _ hq hn
          · intro q hq
            cases hq2 : w.store.find q with
            | none => simp [hq2] at hq
            | some r2 =>
              obtain ⟨j, m⟩ := r2
              show ((w.store.link name _).find q).isSome
              rw [find_link_other _ hq2 hn]; rfl
        · simp at h

theorem ioCopy_ok {env : Env} {fault : Option (Nat × GoError)} {w w1 : World} {dst src : File}
    (h : ioCopy env fault w dst src = (none, w1)) :
    fault = none ∧ ∃ s d, w.store.inodes[src.ino]? = some s ∧ w.store.inodes[dst.ino]? = some d ∧
      w1.store = w.store.setNode dst.ino
        { d with data := overwrite d.data s.data, mtime := env.now } := by
  unfold ioCopy at h
  cases hs : w.store.inodes[src.ino]? with
  | none => simp [hs] at h
  | some s =>
    cases hd : w.store.inodes[dst.ino]? with
    | none => simp [hs, hd] at h
    | some d =>
      cases fault with
      | some ke => simp [hs, hd] at h
      | none =>
        simp only [hs, hd, Prod.mk.injEq, true_and] at h
        exact ⟨rfl, s, d, rfl, rfl, by rw [← h]⟩

theorem ioCopy_isSome (env : Env) (fault : Option (Nat × GoError)) (w : World) (dst src : File)
    {q : Path} (h : (w.store.find q).isSome) :
    ((ioCopy env fault w dst src).2.store.find q).isSome := by
  unfold ioCopy
  cases hs : w.store.inodes[src.ino]? with
  | none => simpa [hs, World.record] using h
  | some s =>
    cases hd : w.store.inodes[dst.ino]? with
    | none => simpa [hs, hd, World.record] using h
    | some d =>
      cases fault with
      | some ke =>
        obtain ⟨k, e⟩ := ke
        simp only [hs, hd]
        exact find_setNode_isSome _ _ h
      | none =>
        simp only [hs, hd]
        exact find_setNode_isSome _ _ h

theorem fileClose_store (fault : Option GoError) (w : World) (f : File) :
    (fileClose fault w f).2.store = w.store := rfl

theorem osRemove_ok {fault : Option GoError} {w w1 : World} {name : Path}
    (h : osRemove fault w name = (none, w1)) :
    fault = none ∧ w1.store = w.store.unlink name := by
  unfold osRemove at h
  cases fault with
  | some e => simp at h
  | none =>
    cases hn : w.store.find name with
    | none => simp [hn] at h
    | some r =>
      simp only [hn, Prod.mk.injEq, true_and] at h
      exact ⟨rfl, by rw [← h]⟩

theorem osRemove_err {fault : Option GoError} {w w1 : World} {name : Path} {e : GoError}
    (h : osRemove fault w name = (some e, w1)) : w1.store = w.store := by
  unfold osRemove at h
  cases fault with
  | some e0 => simp at h; rw [← h.2]; rfl
  | none =>
    cases hn : w.store.find name with
    | none => simp [hn] at h; rw [← h.2]; rfl
    | some r => simp [hn] at h

/-! ## The first attempt, `MoveFile` -/

theorem fs_eq_find (w : World) (p : Path) : w.fs p = (w.store.find p).map Prod.snd := rfl

/-- A successful `MoveFile` went through all four steps. -/
theorem MoveFile_ok_steps {env : Env} {w : World} {src dst : Path}
    (h : (MoveFile env w src dst).1 = none) :
    ∃ fin fout w1 w2 w3 w5, osOpen env.faults.mvOpen w src = (.ok fin, w1) ∧
      osCreate env env.faults.mvCreate w1 dst = (.ok fout, w2) ∧
      ioCopy env env.faults.mvCopy w2 fout fin = (none, w3) ∧
      osRemove env.faults.mvRemove (fileClose env.faults.mvCloseIn w3 fin).2 src = (none, w5) ∧
      MoveFile env w src dst = (none, (fileClose env.faults.mvCloseOut w5 fout).2) := by
  unfold MoveFile at h
  rcases h1 : osOpen env.faults.mvOpen w src with ⟨e1 | fin, w1⟩
  · simp [h1] at h
  · simp only [h1] at h
    rcases h2 : osCreate env env.faults.mvCreate w1 dst with ⟨e2 | fout, w2⟩
    · simp [h2] at h
    · simp only [h2] at h
      rcases h3 : ioCopy env env.faults.mvCopy w2 fout fin with ⟨_ | e3, w3⟩
      · simp only [h3] at h
        rcases h4 : osRemove env.faults.mvRemove (fileClose env.faults.mvCloseIn w3 fin).2 src
          with ⟨_ | e4, w5⟩
        · refine ⟨fin, fout, w1, w2, w3, w5, rfl, h2, h3, h4, ?_⟩
          unfold MoveFile
          simp only [h1, h2, h3, h4]
        · simp [h4] at h
      · simp [h3] at h

/-- Every error `MoveFile` returns is a text-only error built by `fmt.Errorf`. -/
theorem MoveFile_error_text {env : Env} {w : World} {src dst : Path} {e : GoError}
    (h : (MoveFile env w src dst).1 = some e) : ∃ msg cause, e = fmtErrorf msg cause := by
  unfold MoveFile at h
  rcases h1 : osOpen env.faults.mvOpen w src with ⟨e1 | fin, w1⟩
  · simp [h1] at h; exact ⟨_, _, h.symm⟩
  · simp only [h1] at h
    rcases h2 : osCreate env env.faults.mvCreate w1 dst with ⟨e2 | fout, w2⟩
    · simp [h2] at h; exact ⟨_, _, h.symm⟩
    · simp only [h2] at h
      rcases h3 : ioCopy env env.faults.mvCopy w2 fout fin with ⟨_ | e3, w3⟩
      · simp only [h3] at h
        rcases h4 : osRemove env.faults.mvRemove (fileClose env.faults.mvCloseIn w3 fin).2 src
          with ⟨_ | e4, w5⟩
        · simp [h4] at h
        · simp [h4] at h; exact ⟨_, _, h.symm⟩
      · simp [h3] at h; exact ⟨_, _, h.symm⟩

/-- No result of `MoveFile` passes the test of line 13. -/
theorem MoveFile_not_linkErrInvalid (env : Env) (w : World) (src dst : Path) :
    isLinkErrInvalid (MoveFile env w src dst).1 = false := by
  cases h : (MoveFile env w src dst).1 with
  | none => rfl
  | some e =>
    obtain ⟨msg, cause, rfl⟩ := MoveFile_error_text h
    rfl

/-- So `rename` always returns at line 14. -/
theorem rename_eq_MoveFile (env : Env) (w : World) (oldpath newpath : Path) :
    rename env w oldpath newpath = MoveFile env w oldpath newpath := by
  simp [rename, MoveFile_not_linkErrInvalid]

/-- After a successful `MoveFile` the source path names nothing. -/
theorem MoveFile_ok_src {env : Env} {w : World} {src dst : Path}
    (h : (MoveFile env w src dst).1 = none) : (MoveFile env w src dst).2.fs src = none := by
  obtain ⟨fin, fout, w1, w2, w3, w5, -, -, -, h4, hr⟩ := MoveFile_ok_steps h
  obtain ⟨-, h4⟩ := osRemove_ok h4
  rw [hr, fs_eq_find, fileClose_store, h4, find_unlink_self]
  rfl

/-- After a successful `MoveFile` between two paths that did not name the same
file, the destination names a regular file holding the bytes the source held. -/
theorem MoveFile_ok_dst {env : Env} {w : World} {src dst : Path} (hdiff : ¬ sameFile w src dst)
    (h : (MoveFile env w src dst).1 = none) :
    ∃ n0 n1, w.fs src = some n0 ∧ (MoveFile env w src dst).2.fs dst = some n1 ∧
      n1.isDir = false ∧ n1.data = n0.data := by
  obtain ⟨fin, fout, w1, w2, w3, w5, h1, h2, h3, h4, hr⟩ := MoveFile_ok_steps h
  obtain ⟨-, ⟨n0, hn0⟩, hw1⟩ := osOpen_ok h1
  obtain ⟨-, ⟨n1, hn1, hdir, hdata⟩, hwhich, hkeep, -, hentry⟩ := osOpenFile_ok h2
  rw [hw1] at hwhich hkeep hentry
  have hlt : fin.ino < w.store.inodes.length := by
    have hj := find_inode hn0
    rcases Nat.lt_or_ge fin.ino w.store.inodes.length with hlt | hge
    · exact hlt
    · rw [List.getElem?_eq_none hge] at hj; cases hj
  have hino : fin.ino ≠ fout.ino := by
    intro heq
    rcases hwhich with ⟨n, hn⟩ | ⟨-, hlen⟩
    · apply hdiff
      refine ⟨by rw [hn0]; rfl, ?_⟩
      rw [hn0, hn, heq]
      rfl
    · rw [heq, hlen] at hlt
      exact Nat.lt_irrefl _ hlt
  have hent : w.store.entry dst ≠ w.store.entry src := by
    intro he
    apply hdiff
    refine ⟨by rw [hn0]; rfl, ?_⟩
    rw [find_of_entry_eq he]
  have hsrc2 : w2.store.find src = some (fin.ino, n0) := hkeep src fin.ino n0 hn0 hino
  obtain ⟨-, s, d, hs, hd, hw3⟩ := ioCopy_ok h3
  rw [find_inode hsrc2] at hs
  rw [find_inode hn1] at hd
  cases hs
  cases hd
  obtain ⟨-, hw5⟩ := osRemove_ok h4
  rw [fileClose_store] at hw5
  have hent3 : w3.store.entry dst ≠ w3.store.entry src := by
    rw [hw3]
    show w2.store.entry dst ≠ w2.store.entry src
    rw [hentry]
    exact hent
  refine ⟨n0, { n1 with data := overwrite n1.data n0.data, mtime := env.now }, ?_, ?_, hdir, ?_⟩
  · rw [fs_eq_find, hn0]; rfl
  · rw [hr, fs_eq_find, fileClose_store, hw5, find_unlink_other hent3, hw3,
      find_setNode_self _ hn1]
    rfl
  · simp [overwrite, hdata]

/-- A failed `MoveFile` leaves the source path naming something if it did. -/
theorem MoveFile_err_src {env : Env} {w : World} {src dst : Path} {e : GoError}
    (h : (MoveFile env w src dst).1 = some e) (hs : (w.fs src).isSome) :
    ((MoveFile env w src dst).2.fs src).isSome := by
  have hs0 : (w.store.find src).isSome := by
    rw [fs_eq_find] at hs; simpa using hs
  suffices hgoal : ((MoveFile env w src dst).2.store.find src).isSome by
    rw [fs_eq_find]; simpa using hgoal
  unfold MoveFile at h ⊢
  rcases h1 : osOpen env.faults.mvOpen w src with ⟨e1 | fin, w1⟩
  · simp only [h1, osOpen_err h1, hs0]
  · have hw1 := (osOpen_ok h1).2.2
    simp only [h1] at h ⊢
    rcases h2 : osCreate env env.faults.mvCreate w1 dst with ⟨e2 | fout, w2⟩
    · simp only [h2, fileClose_store, osOpenFile_err h2, hw1, hs0]
    · obtain ⟨-, -, -, -, hsome, -⟩ := osOpenFile_ok h2
      have hs2 : (w2.store.find src).isSome := hsome src (by rw [hw1]; exact hs0)
      have hs3 := ioCopy_isSome env env.faults.mvCopy w2 fout fin hs2
      simp only [h2] at h ⊢
      rcases h3 : ioCopy env env.faults.mvCopy w2 fout fin with ⟨_ | e3, w3⟩
      · rw [h3] at hs3
        simp only [h3] at h ⊢
        rcases h4 : osRemove env.faults.mvRemove (fileClose env.faults.mvCloseIn w3 fin).2 src
          with ⟨_ | e4, w5⟩
        · simp [h4] at h
        · have hw5 := osRemove_err h4
          simp only [h4, fileClose_store, hw5]
          exact hs3
      · rw [h3] at hs3
        simp only [h3, fileClose_store]
        exact hs3

/-- A `MoveFile` of a regular file onto its own path succeeds when no step is
made to fail. -/
theorem MoveFile_same_path_ok {env : Env} {w : World} {p : Path} {n : Node}
    (hn : w.fs p = some n) (hd : n.isDir = false) (hopen : env.faults.mvOpen = none)
    (hcreate : env.faults.mvCreate = none) (hcopy : env.faults.mvCopy = none)
    (hremove : env.faults.mvRemove = none) : (MoveFile env w p p).1 = none := by
  obtain ⟨i, hfind⟩ : ∃ i, w.store.find p = some (i, n) := by
    rw [fs_eq_find] at hn
    cases hf : w.store.find p with
    | none => simp [hf] at hn
    | some r =>
      obtain ⟨i, m⟩ := r
      simp [hf] at hn
      exact ⟨i, by rw [hn]⟩
  obtain ⟨isDir, data, mode, mtime⟩ := n
  simp only at hd
  subst hd
  have hf2 := find_setNode_self ⟨false, [], mode, env.now⟩ hfind
  have hi2 := find_inode hf2
  have hf3 := find_setNode_self ⟨false, overwrite [] [], mode, env.now⟩ hf2
  simp [MoveFile, osOpen, osCreate, osOpenFile, ioCopy, osRemove, fileClose, World.record,
    hfind, hopen, hcreate, hcopy, hremove, hi2, hf3]

/-! ## Two names for one file -/

/-- Moving `/a/x` to `/a/./x`, another spelling of the same entry: `rename`
returns no error and nothing is left under either spelling. -/
theorem rename_onto_other_spelling :
    "/a/x" ≠ "/a/./x" ∧
    (rename (exampleEnv noFaults) exampleWorld "/a/x" "/a/./x").1 = none ∧
    (rename (exampleEnv noFaults) exampleWorld "/a/x" "/a/./x").2.fs "/a/x" = none ∧
    (rename (exampleEnv noFaults) exampleWorld "/a/x" "/a/./x").2.fs "/a/./x" = none := by
  decide

/-- Moving `/a/x` onto its hard link `/b/x`: `rename` returns no error and the
one file, now named by `/b/x` alone, is empty. -/
theorem rename_onto_hard_link :
    linkedWorld.fs "/b/x" = some ⟨false, [1, 2, 3], 0o600, 5⟩ ∧
    (rename (exampleEnv noFaults) linkedWorld "/a/x" "/b/x").1 = none ∧
    (rename (exampleEnv noFaults) linkedWorld "/a/x" "/b/x").2.fs "/a/x" = none ∧
    (rename (exampleEnv noFaults) linkedWorld "/a/x" "/b/x").2.fs "/b/x" =
      some ⟨false, [], 0o600, 7⟩ := by
  decide

/-! ## The claims -/

/-- Claim C1 as written fails when both paths are the same: `rename` of the
example file onto itself returns no error, yet afterwards no file holding its
bytes exists at the new path. -/
theorem same_path_breaks_success_post :
    ¬ ((rename (exampleEnv noFaults) exampleWorld "/a/x" "/a/x").1 = none →
      (∃ n0 n1, exampleWorld.fs "/a/x" = some n0 ∧
        (rename (exampleEnv noFaults) exampleWorld "/a/x" "/a/x").2.fs "/a/x" = some n1 ∧
        n1.isDir = false ∧ n1.data = n0.data) ∧
      (rename (exampleEnv noFaults) exampleWorld "/a/x" "/a/x").2.fs "/a/x" = none) := by
  intro h
  obtain ⟨⟨n0, n1, -, h1, -⟩, h2⟩ := h (by decide)
  rw [h2] at h1
  cases h1

/-- Claim C1 (amended): for two paths that do not name the same file before the
call, if `rename` returns no error then afterwards a regular file holding the
bytes the old path held before the call exists at the new path, and nothing
exists at the old path. -/
theorem rename_success_post (env : Env) (w : World) (oldpath newpath : Path)
    (hdiff : ¬ sameFile w oldpath newpath) (h : (rename env w oldpath newpath).1 = none) :
    (∃ n0 n1, w.fs oldpath = some n0 ∧
      (rename env w oldpath newpath).2.fs newpath = some n1 ∧
      n1.isDir = false ∧ n1.data = n0.data) ∧
    (rename env w oldpath newpath).2.fs oldpath = none := by
  rw [rename_eq_MoveFile] at h ⊢
  exact ⟨MoveFile_ok_dst hdiff h, MoveFile_ok_src h⟩

/-- Claim C1 (amended) applied to the move of `/a/x` to `/b/x` in the example. -/
theorem rename_success_post_witness :
    ¬ sameFile exampleWorld "/a/x" "/b/x" ∧
    (rename (exampleEnv noFaults) exampleWorld "/a/x" "/b/x").1 = none ∧
    ((∃ n0 n1, exampleWorld.fs "/a/x" = some n0 ∧
      (rename (exampleEnv noFaults) exampleWorld "/a/x" "/b/x").2.fs "/b/x" = some n1 ∧
      n1.isDir = false ∧ n1.data = n0.data) ∧
    (rename (exampleEnv noFaults) exampleWorld "/a/x" "/b/x").2.fs "/a/x" = none) :=
  ⟨by unfold sameFile; decide, by decide,
    rename_success_post (exampleEnv noFaults) exampleWorld "/a/x" "/b/x"
      (by unfold sameFile; decide) (by decide)⟩

/-- Claim C2: when `rename` returns an error, the state it leaves is never one
in which the old path has been deleted (something was there before the call,
nothing is there after it) while the new path is absent or holds bytes other
than those the old path held. -/
theorem rename_error_no_data_loss (env : Env) (w : World) (oldpath newpath : Path) (e : GoError)
    (h : (rename env w oldpath newpath).1 = some e) :
    ¬ (((w.fs oldpath).isSome ∧ (rename env w oldpath newpath).2.fs oldpath = none) ∧
      ((rename env w oldpath newpath).2.fs newpath = none ∨
        ∃ n0 n1, w.fs oldpath = some n0 ∧
          (rename env w oldpath newpath).2.fs newpath = some n1 ∧ n1.data ≠ n0.data)) := by
  rw [rename_eq_MoveFile] at h ⊢
  rintro ⟨⟨hs, hgone⟩, -⟩
  have := MoveFile_err_src h hs
  rw [hgone] at this
  cases this

/-- Claim C2 applied to the example with the removal of the source failing. -/
theorem rename_error_no_data_loss_witness :
    (rename (exampleEnv removeFault) exampleWorld "/a/x" "/b/x").1 =
      some (.errorString "failed removing original file: remove /a/x: permission denied") ∧
    ¬ (((exampleWorld.fs "/a/x").isSome ∧
        (rename (exampleEnv removeFault) exampleWorld "/a/x" "/b/x").2.fs "/a/x" = none) ∧
      ((rename (exampleEnv removeFault) exampleWorld "/a/x" "/b/x").2.fs "/b/x" = none ∨
        ∃ n0 n1, exampleWorld.fs "/a/x" = some n0 ∧
          (rename (exampleEnv removeFault) exampleWorld "/a/x" "/b/x").2.fs "/b/x" = some n1 ∧
          n1.data ≠ n0.data)) :=
  ⟨by decide,
    rename_error_no_data_loss (exampleEnv removeFault) exampleWorld "/a/x" "/b/x"
      (.errorString "failed removing original file: remove /a/x: permission denied")
      (by decide)⟩

/-- Claim C3: on the example, with the copy failing after one byte, `rename`
returns the text error of line 80 and leaves at the new path, which was absent,
a file holding that one byte, where the claim wants no file; the old path is
untouched.  The fallback of lines 22-63, run on the same input, does remove the
partial destination (lines 42-43). -/
theorem rename_copy_failure_leaves_destination :
    (rename (exampleEnv copyFault) exampleWorld "/a/x" "/b/x").1 =
      some (.errorString "writing to output file failed: write /b/x: i/o error") ∧
    exampleWorld.fs "/b/x" = none ∧
    (rename (exampleEnv copyFault) exampleWorld "/a/x" "/b/x").2.fs "/b/x" =
      some ⟨false, [1], 0o644, 7⟩ ∧
    (rename (exampleEnv copyFault) exampleWorld "/a/x" "/b/x").2.fs "/a/x" =
      exampleWorld.fs "/a/x" ∧
    (renameFallback (exampleEnv copyFault) exampleWorld "/a/x" "/b/x").2.fs "/b/x" = none := by
  decide

/-- Claim C4: on the example, with the old path a directory and the new path
absent in another directory, `rename` creates an empty file at the new path
before it reads the source.  When the read of the directory is refused it
returns the text error of line 80, not a link error caused by `EISDIR`; when
the platform lets the empty directory be read it returns no error at all.  The
fallback of lines 22-63, run on the same input, rejects the directory with
`EISDIR` before creating anything (lines 32-34). -/
theorem rename_directory_not_rejected :
    (exampleWorld.fs "/a/d").map Node.isDir = some true ∧
    exampleDir "/a/d" ≠ exampleDir "/b/x" ∧
    exampleWorld.fs "/b/x" = none ∧
    (rename (exampleEnv dirReadFault) exampleWorld "/a/d" "/b/x").1 =
      some (.errorString "writing to output file failed: read /a/d: file is a directory") ∧
    (rename (exampleEnv dirReadFault) exampleWorld "/a/d" "/b/x").2.fs "/b/x" =
      some ⟨false, [], 0o644, 7⟩ ∧
    (rename (exampleEnv noFaults) exampleWorld "/a/d" "/b/x").1 = none ∧
    (rename (exampleEnv noFaults) exampleWorld "/a/d" "/b/x").2.fs "/b/x" =
      some ⟨false, [], 0o644, 7⟩ ∧
    (renameFallback (exampleEnv dirReadFault) exampleWorld "/a/d" "/b/x").1 =
      some (.linkError "rename" "/a/d" "/b/x" EISDIR) ∧
    (renameFallback (exampleEnv dirReadFault) exampleWorld "/a/d" "/b/x").2.fs "/b/x" = none := by
  decide

/-- Claim C5: on the example the first attempt of `rename` fails for a reason
other than the link error with `os.ErrInvalid`, once at removing the source and
once at copying; `rename` returns that error unchanged and makes no call beyond
those of the first attempt, but the new path, absent before the call, is left
holding the copy, or the one byte copied, where the claim wants it left as it
was.  The first attempt of line 12 is `MoveFile`, a copy followed by a
removal, where the test of line 13 and the comment of line 10 expect
`os.Rename`. -/
theorem failed_attempt_changes_destination :
    exampleWorld.fs "/b/x" = none ∧
    (MoveFile (exampleEnv removeFault) exampleWorld "/a/x" "/b/x").1 =
      some (.errorString "failed removing original file: remove /a/x: permission denied") ∧
    isLinkErrInvalid
      (some (.errorString "failed removing original file: remove /a/x: permission denied")) =
      false ∧
    (rename (exampleEnv removeFault) exampleWorld "/a/x" "/b/x").1 =
      some (.errorString "failed removing original file: remove /a/x: permission denied") ∧
    (rename (exampleEnv removeFault) exampleWorld "/a/x" "/b/x").2.log =
      (MoveFile (exampleEnv removeFault) exampleWorld "/a/x" "/b/x").2.log ∧
    (rename (exampleEnv removeFault) exampleWorld "/a/x" "/b/x").2.fs "/b/x" =
      some ⟨false, [1, 2, 3], 0o644, 7⟩ ∧
    (MoveFile (exampleEnv copyFault) exampleWorld "/a/x" "/b/x").1 =
      some (.errorString "writing to output file failed: write /b/x: i/o error") ∧
    (rename (exampleEnv copyFault) exampleWorld "/a/x" "/b/x").1 =
      some (.errorString "writing to output file failed: write /b/x: i/o error") ∧
    (rename (exampleEnv copyFault) exampleWorld "/a/x" "/b/x").2.log =
      (MoveFile (exampleEnv copyFault) exampleWorld "/a/x" "/b/x").2.log ∧
    (rename (exampleEnv copyFault) exampleWorld "/a/x" "/b/x").2.fs "/b/x" =
      some ⟨false, [1], 0o644, 7⟩ := by
  decide

/-- Claim C6: on the example, with nothing at the old path, the error `rename`
returns is the text-only error of line 69, whose message merely quotes the
cause; it is not a link error for any cause.  The fallback of lines 22-63, run
on the same input, returns the link error naming the operation and both paths
and wrapping the cause (line 24). -/
theorem rename_error_is_text_only :
    exampleWorld.fs "/a/y" = none ∧
    (rename (exampleEnv noFaults) exampleWorld "/a/y" "/b/x").1 =
      some (.errorString "couldn't open source file: open /a/y: file does not exist") ∧
    (∀ cause, (rename (exampleEnv noFaults) exampleWorld "/a/y" "/b/x").1 ≠
      some (.linkError "rename" "/a/y" "/b/x" cause)) ∧
    (renameFallback (exampleEnv noFaults) exampleWorld "/a/y" "/b/x").1 =
      some (.linkError "rename" "/a/y" "/b/x" (.pathError "open" "/a/y" ENOENT)) := by
  have h : (rename (exampleEnv noFaults) exampleWorld "/a/y" "/b/x").1 =
      some (.errorString "couldn't open source file: open /a/y: file does not exist") := by
    decide
  refine ⟨by decide, h, ?_, by decide⟩
  intro cause hc
  rw [h] at hc
  cases hc

/-- Claim C7: on the example, the old path is a regular file of mode 0600 and
the new path is absent in another directory; `rename` returns no error, opens
the destination with mode 0666 and leaves it with mode 0644, not 0600.  The
fallback of lines 22-63, run on the same input, opens the destination with the
source's mode and leaves it with mode 0600 (lines 36 and 53-58). -/
theorem rename_mode_not_preserved :
    exampleWorld.fs "/a/x" = some ⟨false, [1, 2, 3], 0o600, 5⟩ ∧
    exampleDir "/a/x" ≠ exampleDir "/b/x" ∧
    (rename (exampleEnv noFaults) exampleWorld "/a/x" "/b/x").1 = none ∧
    Call.openFile "/b/x" 0o666 ∈
      (rename (exampleEnv noFaults) exampleWorld "/a/x" "/b/x").2.log ∧
    ((rename (exampleEnv noFaults) exampleWorld "/a/x" "/b/x").2.fs "/b/x").map Node.mode =
      some 0o644 ∧
    (renameFallback (exampleEnv noFaults) exampleWorld "/a/x" "/b/x").1 = none ∧
    Call.openFile "/b/x" 0o600 ∈
      (renameFallback (exampleEnv noFaults) exampleWorld "/a/x" "/b/x").2.log ∧
    ((renameFallback (exampleEnv noFaults) exampleWorld "/a/x" "/b/x").2.fs "/b/x").map
      Node.mode = some 0o600 := by
  decide

/-- Claim C8: on the example, with the close of the destination failing,
`rename` makes that close, drops its error and returns none; the file stays at
the new path and the old path is gone, where the claim wants an error, no file
at the new path and the old path intact.  The fallback of lines 22-63, run on
the same input, reports the close error, removes the destination and keeps the
source (lines 46-49). -/
theorem rename_close_failure_unreported :
    Call.close "/b/x" ∈ (rename (exampleEnv closeFault) exampleWorld "/a/x" "/b/x").2.log ∧
    (rename (exampleEnv closeFault) exampleWorld "/a/x" "/b/x").1 = none ∧
    (rename (exampleEnv closeFault) exampleWorld "/a/x" "/b/x").2.fs "/b/x" =
      some ⟨false, [1, 2, 3], 0o644, 7⟩ ∧
    (rename (exampleEnv closeFault) exampleWorld "/a/x" "/b/x").2.fs "/a/x" = none ∧
    (renameFallback (exampleEnv closeFault) exampleWorld "/a/x" "/b/x").1 =
      some (.linkError "rename" "/a/x" "/b/x"
        (.pathError "close" "/b/x" (.syscallError "i/o error"))) ∧
    (renameFallback (exampleEnv closeFault) exampleWorld "/a/x" "/b/x").2.fs "/b/x" = none ∧
    (renameFallback (exampleEnv closeFault) exampleWorld "/a/x" "/b/x").2.fs "/a/x" =
      exampleWorld.fs "/a/x" := by
  decide

/-- Claim C9: `rename` returns exactly the error, or none, that `MoveFile`
returns and leaves exactly the state `MoveFile` leaves, call log included, so
no step of the fallback of lines 22-63 runs; the reason is that no result of
`MoveFile` is a link error whose cause is `os.ErrInvalid`. -/
theorem rename_fallback_unreachable (env : Env) (w : World) (oldpath newpath : Path) :
    rename env w oldpath newpath = MoveFile env w oldpath newpath ∧
    isLinkErrInvalid (MoveFile env w oldpath newpath).1 = false ∧
    ∀ op old new, (MoveFile env w oldpath newpath).1 ≠ some (.linkError op old new .errInvalid) := by
  refine ⟨rename_eq_MoveFile env w oldpath newpath,
    MoveFile_not_linkErrInvalid env w oldpath newpath, ?_⟩
  intro op old new h
  obtain ⟨msg, cause, hc⟩ := MoveFile_error_text h
  cases hc

/-- Claim C10: if `p` is an existing regular file and opening it, truncating
it, reading it and removing it do not fail, then `rename(p, p)` returns no
error and afterwards nothing exists at `p`. -/
theorem rename_same_path_destroys (env : Env) (w : World) (p : Path) (n : Node)
    (hn : w.fs p = some n) (hfile : n.isDir = false)
    (hopen : env.faults.mvOpen = none) (hcreate : env.faults.mvCreate = none)
    (hcopy : env.faults.mvCopy = none) (hremove : env.faults.mvRemove = none) :
    (rename env w p p).1 = none ∧ (rename env w p p).2.fs p = none := by
  rw [rename_eq_MoveFile]
  have h := MoveFile_same_path_ok hn hfile hopen hcreate hcopy hremove
  exact ⟨h, MoveFile_ok_src h⟩

/-- Claim C10 applied to the file `/a/x` of the example. -/
theorem rename_same_path_destroys_witness :
    exampleWorld.fs "/a/x" = some ⟨false, [1, 2, 3], 0o600, 5⟩ ∧
    (rename (exampleEnv noFaults) exampleWorld "/a/x" "/a/x").1 = none ∧
    (rename (exampleEnv noFaults) exampleWorld "/a/x" "/a/x").2.fs "/a/x" = none :=
  ⟨by decide,
    rename_same_path_destroys (exampleEnv noFaults) exampleWorld "/a/x"
      ⟨false, [1, 2, 3], 0o600, 5⟩ (by decide) rfl rfl rfl rfl rfl⟩


end Flatfs
